import Mathlib

/-!
Shallow embedding of the apalis-nats storage adapter
(`packages/apalis-nats/src/storage.rs`, `expose.rs`) and proofs of the
specification claims about it.

Broker side effects (publish, ack, nak, term, stream lookup) are modelled
by explicit oracles: a call's success or failure is an input, and every
broker call a code path performs is recorded in an ordered trace of
`BrokerOp` values, in program order.  Machine integers (`i64`, `u64`) are
modelled as `Int`/`Nat`; none of the modelled code paths can overflow them.
-/

namespace ApalisNats

/-- Priority levels for jobs (`enum Priority` in storage.rs). -/
inductive Priority : Type
  | high
  | medium
  | low
  deriving DecidableEq, Repr

/-- `impl fmt::Display for Priority`: the lowercase textual form. -/
def Priority.render : Priority → String
  | .high => "high"
  | .medium => "medium"
  | .low => "low"

/-- `impl Default for Priority` returns `Priority::Medium`. -/
def Priority.default : Priority := .medium

/-- The priority iteration order used by provisioning, the fetch loop,
`len` and `stats`: `[Priority::High, Priority::Medium, Priority::Low]`. -/
def priorityOrder : List Priority := [.high, .medium, .low]

/-- Configuration for NATS storage (`struct Config` in storage.rs).
The Rust struct has exactly these fields (plus the `otel`-gated
`enable_tracing`); in particular it has no `nak_backoff` and no
`fetch_expiry` field. -/
structure Config : Type where
  ns : String
  max_deliver : Int
  ack_wait_secs : Nat
  num_replicas : Nat
  enable_dlq : Bool
  max_ack_pending : Int
  deriving Repr

/-- `impl Default for Config`. -/
def Config.default : Config :=
  { ns := "apalis"
    max_deliver := 5
    ack_wait_secs := 30
    num_replicas := 1
    enable_dlq := true
    max_ack_pending := 100 }

/-- `NatsStorage::get_stream_name`: `format!("{}_{}", namespace, priority)`. -/
def streamName (cfg : Config) (p : Priority) : String :=
  cfg.ns ++ "_" ++ p.render

/-- `NatsStorage::get_subject`: `format!("{}.{}", namespace, priority)`. -/
def subjectName (cfg : Config) (p : Priority) : String :=
  cfg.ns ++ "." ++ p.render

/-- The DLQ stream name `format!("{}_dlq", namespace)`. -/
def dlqStreamName (cfg : Config) : String :=
  cfg.ns ++ "_dlq"

/-- The DLQ subject `format!("{}.dlq", namespace)`. -/
def dlqSubjectName (cfg : Config) : String :=
  cfg.ns ++ ".dlq"

/-- The error kind of `NatsPollError` (storage.rs): broker error,
serialization error, or storage (unsupported-operation) error. -/
inductive NatsPollError : Type
  | nats (msg : String)
  | serialization (msg : String)
  | storage (msg : String)
  deriving DecidableEq, Repr

/-- `jetstream::AckKind` as used by the adapter: plain ack, Nak with an
optional delay (milliseconds), Term, and Progress. -/
inductive AckKind : Type
  | ack
  | nak (delayMs : Option Nat)
  | term
  | progress
  deriving DecidableEq, Repr

/-- The DLQ envelope built by `Ack::ack` (the `json!` literal in
storage.rs), with its JSON fields. -/
structure DlqEnvelope : Type where
  original_task_id : String
  error : String
  attempts : String
  delivered_count : Nat
  timestamp : String
  dlq_reason : String
  payload : List Nat
  deriving DecidableEq, Repr

/-- One broker call made by the adapter, recorded in program order. -/
inductive BrokerOp : Type
  | ackMsg
  | ackWith (kind : AckKind)
  | publishDlq (subject : String) (envelope : DlqEnvelope)
  deriving DecidableEq, Repr

/-- The classification of a handler error as consumed by `Ack::ack`:
`Error::Abort(_)` versus every other (transient) error variant. -/
inductive JobError : Type
  | abort (msg : String)
  | other (msg : String)
  deriving DecidableEq, Repr

/-- `e.to_string()` for the modelled error. -/
def JobError.render : JobError → String
  | .abort m => m
  | .other m => m

/-- A JetStream message as seen by the ack handler: its payload bytes and
the broker-reported delivery count (`msg.info().delivered`). -/
structure Message : Type where
  payload : List Nat
  delivered : Nat
  deriving DecidableEq, Repr

/-- Per-delivery context (`struct NatsContext`): an optional attached
broker message.  `NatsContext::default()` has `message = none`. -/
structure NatsContext : Type where
  message : Option Message
  deriving DecidableEq, Repr

/-- The fields of `Response` that `Ack::ack` reads: the outcome
(`response.inner`), the task id and the rendered attempt counter. -/
structure AckRecord : Type where
  outcome : Except JobError Unit
  task_id : String
  attemptStr : String

/-- Success/failure of each broker call the ack handler may make, plus
the timestamp string the handler would render; the oracle for one run
of `Ack::ack`. -/
structure AckBroker : Type where
  publishDlqOk : Bool
  ackOk : Bool
  ackWithOk : Bool
  nowRfc3339 : String

/-- The `should_dlq` flag computed by `Ack::ack`: abort errors always
route to the DLQ; other errors route when the broker-reported delivery
count has reached `max_deliver`
(`info.delivered as i64 >= self.config.max_deliver`). -/
def shouldDlq (cfg : Config) (msg : Message) : JobError → Bool
  | .abort _ => true
  | .other _ => decide ((msg.delivered : Int) ≥ cfg.max_deliver)

/-- The DLQ envelope `Ack::ack` builds for an error outcome (the
`json!` literal): metadata of the failed delivery plus the
`dlq_reason`, which is `abort_error` for `Error::Abort` and
`max_deliver_exceeded` for every other error. -/
def dlqEnvelopeFor (b : AckBroker) (msg : Message) (r : AckRecord)
    (e : JobError) : DlqEnvelope :=
  { original_task_id := r.task_id
    error := e.render
    attempts := r.attemptStr
    delivered_count := msg.delivered
    timestamp := b.nowRfc3339
    dlq_reason :=
      match e with
      | .abort _ => "abort_error"
      | .other _ => "max_deliver_exceeded"
    payload := msg.payload }

/-- `Ack::ack` for `NatsStorage` (storage.rs, lines 671-770), as a pure
function from the context, the record and the broker oracle to the
ordered trace of broker calls attempted and the returned result.  Every
branch mirrors the source: no message in the context is a no-op; success
acks; an error computes `should_dlq` from the classification and the
delivery count, publishes to the DLQ and then acks when DLQ routing
applies, otherwise terminates on abort and naks (with no delay) on a
transient error.  A failed broker call short-circuits with `?`. -/
def ackHandler (cfg : Config) (b : AckBroker) (ctx : NatsContext)
    (r : AckRecord) : List BrokerOp × Except NatsPollError Unit :=
  match ctx.message with
  | none => ([], .ok ())
  | some msg =>
    match r.outcome with
    | .ok _ =>
      if b.ackOk then ([.ackMsg], .ok ())
      else ([.ackMsg], .error (.nats "ack failed"))
    | .error e =>
      if shouldDlq cfg msg e && cfg.enable_dlq then
        let pub : BrokerOp := .publishDlq (dlqSubjectName cfg) (dlqEnvelopeFor b msg r e)
        if b.publishDlqOk then
          if b.ackOk then ([pub, .ackMsg], .ok ())
          else ([pub, .ackMsg], .error (.nats "ack failed"))
        else ([pub], .error (.nats "dlq publish failed"))
      else
        match e with
        | .abort _ =>
          if b.ackWithOk then ([.ackWith .term], .ok ())
          else ([.ackWith .term], .error (.nats "term failed"))
        | .other _ =>
          if b.ackWithOk then ([.ackWith (.nak none)], .ok ())
          else ([.ackWith (.nak none)], .error (.nats "nak failed"))

/-- Does a broker op publish to the DLQ? -/
def BrokerOp.isDlqPublish : BrokerOp → Bool
  | .publishDlq _ _ => true
  | _ => false

/-- Does a broker op ack the original message (`msg.ack()`)? -/
def BrokerOp.isAck : BrokerOp → Bool
  | .ackMsg => true
  | _ => false

/-! ## Fetch loop (`Backend::poll`, storage.rs lines 812-861) -/

/-- What a pulled broker message decodes to: a well-formed job envelope
carrying a payload of type `T`, or a payload `serde_json` rejects. -/
inductive FetchMsg (T : Type) : Type
  | decodable (job : T)
  | malformed
  deriving DecidableEq

/-- The result of one per-priority fetch attempt: the consumer lookup or
the fetch itself failed (`if let Ok(..)` falls through), the batch was
empty, or one message arrived. -/
inductive FetchOutcome (T : Type) : Type
  | brokerErr
  | empty
  | msg (content : FetchMsg T)
  deriving DecidableEq

/-- Observable events of one iteration of the fetch loop, in program
order.  `nakMsg` and `dlqPublish` are in the event language so that
their absence is expressible; the fetch loop itself never emits them. -/
inductive FetchEvent : Type
  | pull (p : Priority)
  | send (p : Priority)
  | termMalformed (p : Priority)
  | nakMsg (p : Priority)
  | dlqPublish (p : Priority)
  deriving DecidableEq, Repr

/-- How one per-priority loop body ends: fall through to the next
priority, `break` after delivering a job, or `return` (task exit)
because the downstream channel is closed. -/
inductive PassStep : Type
  | fellThrough
  | delivered
  | exited
  deriving DecidableEq, Repr

/-- One per-priority body of the fetch loop: attempt a pull of at most
one message; a decodable message is sent downstream (break) unless the
channel is closed (return); a malformed message is ack-with-terminated
and the body falls through; a broker error or empty batch falls
through. -/
def tryPriority {T : Type} (chOpen : Bool) (p : Priority) :
    FetchOutcome T → List FetchEvent × PassStep
  | .brokerErr => ([.pull p], .fellThrough)
  | .empty => ([.pull p], .fellThrough)
  | .msg (.decodable _) =>
    if chOpen then ([.pull p, .send p], .delivered)
    else ([.pull p], .exited)
  | .msg (.malformed) => ([.pull p, .termMalformed p], .fellThrough)

/-- The `for priority in [High, Medium, Low]` loop of one iteration,
folded over a priority list: returns the event trace, the `job_found`
flag, and whether the task `return`ed. -/
def fetchPassAux {T : Type} (chOpen : Bool) (fetch : Priority → FetchOutcome T) :
    List Priority → List FetchEvent × Bool × Bool
  | [] => ([], false, false)
  | p :: rest =>
    let step := tryPriority chOpen p (fetch p)
    match step.2 with
    | .fellThrough =>
      let next := fetchPassAux chOpen fetch rest
      (step.1 ++ next.1, next.2.1, next.2.2)
    | .delivered => (step.1, true, false)
    | .exited => (step.1, false, true)

/-- The outcome of one iteration of the fetch loop: the spawned task
exits, or it sleeps `ms` milliseconds before the next iteration. -/
inductive IterResult : Type
  | exited
  | sleep (ms : Nat)
  deriving DecidableEq, Repr

/-- One full iteration of the fetch loop: a pass over the priorities in
order High, Medium, Low, then a 10 ms sleep when a job was delivered and
a 100 ms sleep otherwise; the task exits only when a downstream send
failed. -/
def fetchIteration {T : Type} (chOpen : Bool)
    (fetch : Priority → FetchOutcome T) : List FetchEvent × IterResult :=
  let pass := fetchPassAux chOpen fetch priorityOrder
  if pass.2.2 then (pass.1, .exited)
  else (pass.1, .sleep (if pass.2.1 then 10 else 100))

/-- The priority of a pull event, if the event is a pull. -/
def FetchEvent.pulled : FetchEvent → Option Priority
  | .pull p => some p
  | _ => none

/-- The ordered list of priorities pulled in an event trace. -/
def pulls (evs : List FetchEvent) : List Priority :=
  evs.filterMap FetchEvent.pulled

/-! ## Stream provisioning (`new_with_config`, storage.rs lines 310-371) -/

/-- `jetstream::stream::StorageType` as used here. -/
inductive StorageType : Type
  | file
  | memory
  deriving DecidableEq, Repr

/-- `jetstream::stream::RetentionPolicy`; `limits` is the `Default`. -/
inductive RetentionPolicy : Type
  | limits
  | interest
  | workQueue
  deriving DecidableEq, Repr

/-- `jetstream::stream::DiscardPolicy`; `old` is the `Default`. -/
inductive DiscardPolicy : Type
  | old
  | new
  deriving DecidableEq, Repr

/-- The fields of `jetstream::stream::Config` that `new_with_config`
sets (durations in seconds). -/
structure StreamConfig : Type where
  name : String
  subjects : List String
  max_age_secs : Nat
  storage : StorageType
  num_replicas : Nat
  retention : RetentionPolicy
  discard : DiscardPolicy
  duplicate_window_secs : Nat
  deriving DecidableEq, Repr

/-- The per-priority work-queue stream configuration built in the
provisioning loop of `new_with_config`. -/
def priorityStreamConfig (cfg : Config) (p : Priority) : StreamConfig :=
  { name := streamName cfg p
    subjects := [subjectName cfg p]
    max_age_secs := 7 * 24 * 60 * 60
    storage := .file
    num_replicas := cfg.num_replicas
    retention := .workQueue
    discard := .old
    duplicate_window_secs := 120 }

/-- The DLQ stream configuration built by `new_with_config` when
`enable_dlq` is set; retention, discard and duplicate window come from
`stream::Config::default()`. -/
def dlqStreamConfig (cfg : Config) : StreamConfig :=
  { name := dlqStreamName cfg
    subjects := [dlqSubjectName cfg]
    max_age_secs := 30 * 24 * 60 * 60
    storage := .file
    num_replicas := cfg.num_replicas
    retention := .limits
    discard := .old
    duplicate_window_secs := 0 }

/-- The stream configurations `new_with_config` submits, in submission
order: one per priority (High, Medium, Low), then the DLQ stream when
`enable_dlq` is set. -/
def plannedStreams (cfg : Config) : List StreamConfig :=
  priorityOrder.map (priorityStreamConfig cfg) ++
    (if cfg.enable_dlq then [dlqStreamConfig cfg] else [])

/-- Sequential `get_or_create_stream` calls: the first failure aborts
with a `Nats` error (as `new_with_config` returns
`Err(NatsPollError::Nats(..))`); on success the created configurations
are returned in order. -/
def createAll (create : StreamConfig → Bool) :
    List StreamConfig → Except NatsPollError (List StreamConfig)
  | [] => .ok []
  | c :: rest =>
    if create c then
      match createAll create rest with
      | .ok cs => .ok (c :: cs)
      | .error e => .error e
    else .error (.nats ("Failed to create stream " ++ c.name))

/-- `NatsStorage::new_with_config` restricted to its provisioning
behaviour: submit the planned stream configurations in order against a
broker oracle `create`. -/
def newWithConfig (cfg : Config) (create : StreamConfig → Bool) :
    Except NatsPollError (List StreamConfig) :=
  createAll create (plannedStreams cfg)

/-! ## Operational queries (`Storage::len`, `BackendExpose::stats`) -/

/-- `Storage::len`: sum the `info.state.messages` counts over the three
priority streams; a failed stream lookup or info call is skipped
(`continue`), contributing nothing.  `streamMessages` is the broker
oracle mapping a stream name to its message count, `none` on failure. -/
def lenImpl (cfg : Config) (streamMessages : String → Option Nat) : Int :=
  ((priorityOrder.map fun p => (streamMessages (streamName cfg p)).getD 0).sum : Nat)

/-- `Storage::is_empty`: `len() == 0`. -/
def isEmptyImpl (cfg : Config) (streamMessages : String → Option Nat) : Bool :=
  lenImpl cfg streamMessages == 0

/-- `apalis_core::backend::Stat` as filled in by `BackendExpose::stats`. -/
structure Stat : Type where
  pending : Nat
  running : Nat
  dead : Nat
  failed : Nat
  success : Nat
  deriving DecidableEq, Repr

/-- `BackendExpose::stats` (expose.rs lines 17-55): pending sums the
priority streams, failed reads the DLQ stream when `enable_dlq` is set,
and running, dead and success are reported as zero. -/
def statsImpl (cfg : Config) (streamMessages : String → Option Nat) : Stat :=
  { pending := (priorityOrder.map fun p => (streamMessages (streamName cfg p)).getD 0).sum
    running := 0
    dead := 0
    failed :=
      if cfg.enable_dlq then (streamMessages (dlqStreamName cfg)).getD 0 else 0
    success := 0 }

/-! ## Unsupported operations and per-delivery context operations -/

/-- `Storage::push_raw_request`: unsupported, no broker call. -/
def pushRawRequest : List BrokerOp × Except NatsPollError Unit :=
  ([], .error (.storage "Raw requests not supported"))

/-- `Storage::schedule_request`: unsupported, no broker call. -/
def scheduleRequest (_onTs : Int) : List BrokerOp × Except NatsPollError Unit :=
  ([], .error (.storage "Scheduling not yet implemented"))

/-- `Storage::update`: unsupported, no broker call. -/
def updateJob : List BrokerOp × Except NatsPollError Unit :=
  ([], .error (.storage "Updates not supported"))

/-- `Storage::reschedule`: unsupported, no broker call. -/
def rescheduleJob (_waitSecs : Nat) : List BrokerOp × Except NatsPollError Unit :=
  ([], .error (.storage "Rescheduling not yet implemented"))

/-- `Storage::fetch_by_id`: always `Ok(None)`, no broker call. -/
def fetchById (_id : String) : List BrokerOp × Except NatsPollError (Option Unit) :=
  ([], .ok none)

/-- `BackendExpose::list_jobs`: always `Ok(vec![])`, no broker call. -/
def listJobs (_status : Nat) (_page : Int) :
    List BrokerOp × Except NatsPollError (List Unit) :=
  ([], .ok [])

/-- `Storage::vacuum`: always `Ok(0)`, no broker call. -/
def vacuumImpl : List BrokerOp × Except NatsPollError Nat :=
  ([], .ok 0)

/-- The error type of the `NatsContext` operations in expose.rs
(`apalis_core::error::Error::SourceError`). -/
inductive ExposeError : Type
  | sourceError (msg : String)
  deriving DecidableEq, Repr

/-- `NatsContext::ack` (expose.rs): ack the attached message if there
is one, otherwise return `Ok(())` without any broker call. -/
def NatsContext.ack (ctx : NatsContext) (brokerOk : Bool) :
    List BrokerOp × Except ExposeError Unit :=
  match ctx.message with
  | some _ =>
    ([.ackMsg], if brokerOk then .ok () else .error (.sourceError "ack failed"))
  | none => ([], .ok ())

/-- `NatsContext::nack` (expose.rs): `ack_with(AckKind::Nak(None))` on
the attached message, otherwise `Ok(())` without any broker call. -/
def NatsContext.nack (ctx : NatsContext) (brokerOk : Bool) :
    List BrokerOp × Except ExposeError Unit :=
  match ctx.message with
  | some _ =>
    ([.ackWith (.nak none)],
      if brokerOk then .ok () else .error (.sourceError "nack failed"))
  | none => ([], .ok ())

/-- `NatsContext::term` (expose.rs): `ack_with(AckKind::Term)` on the
attached message, otherwise `Ok(())` without any broker call. -/
def NatsContext.term (ctx : NatsContext) (brokerOk : Bool) :
    List BrokerOp × Except ExposeError Unit :=
  match ctx.message with
  | some _ =>
    ([.ackWith .term],
      if brokerOk then .ok () else .error (.sourceError "term failed"))
  | none => ([], .ok ())

/-- `NatsContext::progress` (expose.rs): `ack_with(AckKind::Progress)`
on the attached message, otherwise `Ok(())` without any broker call. -/
def NatsContext.progress (ctx : NatsContext) (brokerOk : Bool) :
    List BrokerOp × Except ExposeError Unit :=
  match ctx.message with
  | some _ =>
    ([.ackWith .progress],
      if brokerOk then .ok () else .error (.sourceError "progress failed"))
  | none => ([], .ok ())

/-- The context `Storage::push_request` places in the returned `Parts`:
`NatsContext::default()`, which carries no broker message. -/
def pushRequestContext : NatsContext := { message := none }

/-! ## Helper lemmas about the fetch loop -/

/-- One loop body produces one of three event shapes, each tied to how
the body ends: a bare pull (never a delivery), a pull followed by a
downstream send (a delivery), or a pull followed by a terminate of a
malformed message (falls through). -/
theorem tryPriority_cases {T : Type} (chOpen : Bool) (p : Priority)
    (o : FetchOutcome T) :
    ((tryPriority chOpen p o).1 = [.pull p] ∧
      (tryPriority chOpen p o).2 ≠ PassStep.delivered) ∨
    ((tryPriority chOpen p o).1 = [.pull p, .send p] ∧
      (tryPriority chOpen p o).2 = PassStep.delivered) ∨
    ((tryPriority chOpen p o).1 = [.pull p, .termMalformed p] ∧
      (tryPriority chOpen p o).2 = PassStep.fellThrough) := by
  rcases o with _ | _ | c
  · exact Or.inl ⟨rfl, by simp [tryPriority]⟩
  · exact Or.inl ⟨rfl, by simp [tryPriority]⟩
  · rcases c with j | _
    · cases chOpen
      · exact Or.inl ⟨rfl, by simp [tryPriority]⟩
      · exact Or.inr (Or.inl ⟨rfl, rfl⟩)
    · exact Or.inr (Or.inr ⟨rfl, rfl⟩)

/-- The pulls of one loop body are exactly the visited priority. -/
theorem tryPriority_pulls {T : Type} (chOpen : Bool) (p : Priority)
    (o : FetchOutcome T) : pulls (tryPriority chOpen p o).1 = [p] := by
  rcases tryPriority_cases chOpen p o with ⟨h, _⟩ | ⟨h, _⟩ | ⟨h, _⟩ <;>
    simp [h, pulls, FetchEvent.pulled]

/-- A loop body ends the task only when the downstream channel is
closed. -/
theorem tryPriority_exited {T : Type} (chOpen : Bool) (p : Priority)
    (o : FetchOutcome T) (h : (tryPriority chOpen p o).2 = PassStep.exited) :
    chOpen = false := by
  rcases o with _ | _ | c
  · simp [tryPriority] at h
  · simp [tryPriority] at h
  · rcases c with j | _
    · cases chOpen
      · rfl
      · simp [tryPriority] at h
    · simp [tryPriority] at h

/-- A malformed message is terminated regardless of the channel state. -/
theorem tryPriority_malformed {T : Type} (chOpen : Bool) (p : Priority) :
    tryPriority chOpen p (FetchOutcome.msg (T := T) .malformed) =
      ([.pull p, .termMalformed p], PassStep.fellThrough) := rfl

/-- No loop body that does not deliver emits a send event. -/
theorem tryPriority_no_send {T : Type} (chOpen : Bool) (p : Priority)
    (o : FetchOutcome T)
    (h : (tryPriority chOpen p o).2 ≠ PassStep.delivered) :
    ∀ q, FetchEvent.send q ∉ (tryPriority chOpen p o).1 := by
  rcases tryPriority_cases chOpen p o with ⟨hv, _⟩ | ⟨_, hs⟩ | ⟨hv, _⟩
  · intro q; rw [hv]; simp
  · exact absurd hs h
  · intro q; rw [hv]; simp

/-- A delivering loop body emits exactly a pull followed by a send. -/
theorem tryPriority_delivered_shape {T : Type} (chOpen : Bool) (p : Priority)
    (o : FetchOutcome T)
    (h : (tryPriority chOpen p o).2 = PassStep.delivered) :
    (tryPriority chOpen p o).1 = [.pull p, .send p] := by
  rcases tryPriority_cases chOpen p o with ⟨_, hs⟩ | ⟨hv, _⟩ | ⟨_, hs⟩
  · exact absurd h hs
  · exact hv
  · rw [hs] at h; cases h

/-- Every event of one loop body concerns the visited priority and is a
pull, a send, or a terminate of a malformed message. -/
theorem tryPriority_mem {T : Type} (chOpen : Bool) (p : Priority)
    (o : FetchOutcome T) :
    ∀ e ∈ (tryPriority chOpen p o).1,
      e = FetchEvent.pull p ∨ e = FetchEvent.send p ∨
        e = FetchEvent.termMalformed p := by
  rcases tryPriority_cases chOpen p o with ⟨hv, _⟩ | ⟨hv, _⟩ | ⟨hv, _⟩ <;>
    rw [hv] <;> intro e he <;> simp at he <;> tauto

/-- `pulls` distributes over appended traces. -/
theorem pulls_append (a b : List FetchEvent) :
    pulls (a ++ b) = pulls a ++ pulls b := by
  simp [pulls]

/-- The pulls of a whole pass are an order-respecting prefix of the
visited priority list: each priority is pulled at most once, in list
order, and nothing is pulled past a delivery. -/
theorem fetchPassAux_pulls {T : Type} (chOpen : Bool)
    (f : Priority → FetchOutcome T) :
    ∀ ps : List Priority, ∃ k,
      pulls (fetchPassAux chOpen f ps).1 = ps.take k := by
  intro ps
  induction ps with
  | nil => exact ⟨0, rfl⟩
  | cons p rest ih =>
    obtain ⟨k, hk⟩ := ih
    have hpull := tryPriority_pulls chOpen p (f p)
    rcases hstep : (tryPriority chOpen p (f p)).2 with _ | _ | _
    · refine ⟨k + 1, ?_⟩
      simp only [fetchPassAux, hstep]
      rw [pulls_append, hpull, hk]
      rfl
    · refine ⟨1, ?_⟩
      simp only [fetchPassAux, hstep]
      rw [hpull]
      rfl
    · refine ⟨1, ?_⟩
      simp only [fetchPassAux, hstep]
      rw [hpull]
      rfl

/-- The first event of a pass over a nonempty priority list is a pull
of the first priority. -/
theorem fetchPassAux_head {T : Type} (chOpen : Bool)
    (f : Priority → FetchOutcome T) (p : Priority) (rest : List Priority) :
    (fetchPassAux chOpen f (p :: rest)).1.head? = some (.pull p) := by
  rcases tryPriority_cases chOpen p (f p) with ⟨h, _⟩ | ⟨h, _⟩ | ⟨h, _⟩ <;>
    rcases hstep : (tryPriority chOpen p (f p)).2 with _ | _ | _ <;>
      simp only [fetchPassAux, hstep] <;> simp [h]

/-- A send ends a pass: everything after it is cut off by the `break`. -/
theorem fetchPassAux_send_last {T : Type} (chOpen : Bool)
    (f : Priority → FetchOutcome T) :
    ∀ (ps : List Priority) (p : Priority),
      FetchEvent.send p ∈ (fetchPassAux chOpen f ps).1 →
      ∃ pre, (fetchPassAux chOpen f ps).1 = pre ++ [.send p] := by
  intro ps
  induction ps with
  | nil => intro p h; simp [fetchPassAux] at h
  | cons q rest ih =>
    intro p h
    rcases hstep : (tryPriority chOpen q (f q)).2 with _ | _ | _
    · have hns := tryPriority_no_send chOpen q (f q) (by rw [hstep]; intro hc; cases hc) p
      simp only [fetchPassAux, hstep] at h ⊢
      rcases List.mem_append.mp h with h1 | h2
      · exact absurd h1 hns
      · obtain ⟨pre, hpre⟩ := ih p h2
        exact ⟨(tryPriority chOpen q (f q)).1 ++ pre, by rw [hpre, List.append_assoc]⟩
    · have hv := tryPriority_delivered_shape chOpen q (f q) hstep
      simp only [fetchPassAux, hstep] at h ⊢
      rw [hv] at h ⊢
      simp only [List.mem_cons, List.not_mem_nil, or_false] at h
      rcases h with h | h
      · exact absurd h (by simp)
      · have : p = q := by injection h
        subst this
        exact ⟨[FetchEvent.pull p], rfl⟩
    · have hns := tryPriority_no_send chOpen q (f q) (by rw [hstep]; intro hc; cases hc) p
      simp only [fetchPassAux, hstep] at h ⊢
      exact absurd h hns

/-- The `job_found` flag of a pass is set exactly when a send event was
emitted. -/
theorem fetchPassAux_found_iff {T : Type} (chOpen : Bool)
    (f : Priority → FetchOutcome T) :
    ∀ ps : List Priority,
      (fetchPassAux chOpen f ps).2.1 = true ↔
        ∃ p, FetchEvent.send p ∈ (fetchPassAux chOpen f ps).1 := by
  intro ps
  induction ps with
  | nil => simp [fetchPassAux]
  | cons q rest ih =>
    rcases hstep : (tryPriority chOpen q (f q)).2 with _ | _ | _
    · have hns := tryPriority_no_send chOpen q (f q) (by rw [hstep]; intro hc; cases hc)
      simp only [fetchPassAux, hstep]
      constructor
      · intro hf
        obtain ⟨p, hp⟩ := ih.mp hf
        exact ⟨p, List.mem_append.mpr (Or.inr hp)⟩
      · rintro ⟨p, hp⟩
        rcases List.mem_append.mp hp with h1 | h2
        · exact absurd h1 (hns p)
        · exact ih.mpr ⟨p, h2⟩
    · have hv := tryPriority_delivered_shape chOpen q (f q) hstep
      simp only [fetchPassAux, hstep]
      rw [hv]
      simp
    · have hns := tryPriority_no_send chOpen q (f q) (by rw [hstep]; intro hc; cases hc)
      simp only [fetchPassAux, hstep]
      constructor
      · intro hf; cases hf
      · rintro ⟨p, hp⟩
        exact absurd hp (hns p)

/-- The fetch loop never emits a negative ack and never publishes to the
DLQ. -/
theorem fetchPassAux_no_nak_dlq {T : Type} (chOpen : Bool)
    (f : Priority → FetchOutcome T) :
    ∀ (ps : List Priority) (q : Priority),
      FetchEvent.nakMsg q ∉ (fetchPassAux chOpen f ps).1 ∧
        FetchEvent.dlqPublish q ∉ (fetchPassAux chOpen f ps).1 := by
  intro ps
  induction ps with
  | nil => intro q; simp [fetchPassAux]
  | cons p rest ih =>
    intro q
    have hmem := tryPriority_mem chOpen p (f p)
    have hnak : FetchEvent.nakMsg q ∉ (tryPriority chOpen p (f p)).1 := by
      intro hc
      rcases hmem _ hc with h | h | h <;> cases h
    have hdlq : FetchEvent.dlqPublish q ∉ (tryPriority chOpen p (f p)).1 := by
      intro hc
      rcases hmem _ hc with h | h | h <;> cases h
    rcases hstep : (tryPriority chOpen p (f p)).2 with _ | _ | _
    · simp only [fetchPassAux, hstep]
      constructor
      · intro hc
        rcases List.mem_append.mp hc with h1 | h2
        · exact hnak h1
        · exact (ih q).1 h2
      · intro hc
        rcases List.mem_append.mp hc with h1 | h2
        · exact hdlq h1
        · exact (ih q).2 h2
    · simp only [fetchPassAux, hstep]
      exact ⟨hnak, hdlq⟩
    · simp only [fetchPassAux, hstep]
      exact ⟨hnak, hdlq⟩

/-- A pulled malformed message is always terminated within the same
pass. -/
theorem fetchPassAux_malformed_term {T : Type} (chOpen : Bool)
    (f : Priority → FetchOutcome T) :
    ∀ (ps : List Priority) (p : Priority),
      FetchEvent.pull p ∈ (fetchPassAux chOpen f ps).1 →
      f p = FetchOutcome.msg .malformed →
      FetchEvent.termMalformed p ∈ (fetchPassAux chOpen f ps).1 := by
  intro ps
  induction ps with
  | nil => intro p h; simp [fetchPassAux] at h
  | cons q rest ih =>
    intro p h hf
    rcases hstep : (tryPriority chOpen q (f q)).2 with _ | _ | _
    · simp only [fetchPassAux, hstep] at h ⊢
      rcases List.mem_append.mp h with h1 | h2
      · have hpq : p = q := by
          rcases tryPriority_mem chOpen q (f q) _ h1 with he | he | he <;>
            injection he
        subst hpq
        rw [hf, tryPriority_malformed] at h1 ⊢
        exact List.mem_append.mpr (Or.inl (by simp))
      · exact List.mem_append.mpr (Or.inr (ih p h2 hf))
    · have hv := tryPriority_delivered_shape chOpen q (f q) hstep
      simp only [fetchPassAux, hstep] at h ⊢
      rw [hv] at h
      have hpq : p = q := by
        simp only [List.mem_cons, List.not_mem_nil, or_false] at h
        rcases h with h | h
        · injection h
        · exact absurd h (by simp)
      subst hpq
      rw [hf] at hstep
      rw [tryPriority_malformed] at hstep
      cases hstep
    · have hpq : p = q := by
        simp only [fetchPassAux, hstep] at h
        rcases tryPriority_mem chOpen q (f q) _ h with he | he | he <;>
          injection he
      subst hpq
      rw [hf, tryPriority_malformed] at hstep
      cases hstep

/-- A pass reports task exit only when the downstream channel is
closed. -/
theorem fetchPassAux_exit {T : Type} (chOpen : Bool)
    (f : Priority → FetchOutcome T) :
    ∀ ps : List Priority,
      (fetchPassAux chOpen f ps).2.2 = true → chOpen = false := by
  intro ps
  induction ps with
  | nil => intro h; cases h
  | cons q rest ih =>
    intro h
    rcases hstep : (tryPriority chOpen q (f q)).2 with _ | _ | _
    · simp only [fetchPassAux, hstep] at h
      exact ih h
    · simp only [fetchPassAux, hstep] at h
      cases h
    · exact tryPriority_exited chOpen q (f q) hstep

/-- The event trace of one iteration is the event trace of its pass. -/
theorem fetchIteration_events {T : Type} (chOpen : Bool)
    (f : Priority → FetchOutcome T) :
    (fetchIteration chOpen f).1 = (fetchPassAux chOpen f priorityOrder).1 := by
  simp only [fetchIteration]
  split <;> rfl

/-! ## Helper lemmas about provisioning -/

/-- Is a result the `Nats` error variant? -/
def isNatsError {α : Type} : Except NatsPollError α → Bool
  | .error (.nats _) => true
  | _ => false

/-- When every stream creation succeeds, all planned configurations are
created in order. -/
theorem createAll_all_ok (l : List StreamConfig) :
    createAll (fun _ => true) l = .ok l := by
  induction l with
  | nil => rfl
  | cons c rest ih => simp [createAll, ih]

/-- Any failing stream creation surfaces as a `Nats` error. -/
theorem createAll_error_of_mem (create : StreamConfig → Bool)
    (l : List StreamConfig) (h : ∃ c ∈ l, create c = false) :
    isNatsError (createAll create l) = true := by
  induction l with
  | nil => simp at h
  | cons c rest ih =>
    by_cases hc : create c = true
    · obtain ⟨c', hmem, hfalse⟩ := h
      rcases List.mem_cons.mp hmem with he | hm
      · subst he; rw [hc] at hfalse; cases hfalse
      · have hrest := ih ⟨c', hm, hfalse⟩
        simp only [createAll, if_pos hc]
        rcases hcr : createAll create rest with e | cs
        · rw [hcr] at hrest
          exact hrest
        · rw [hcr] at hrest
          simp [isNatsError] at hrest
    · have hcf : create c = false := by
        cases hcc : create c
        · rfl
        · exact absurd hcc hc
      simp [createAll, hcf, isNatsError]

/-! ## Claim theorems -/

/-- C1: for every ack record whose context carries a broker message, a
success outcome acks the message, and an abort-classified error with
DLQ enabled publishes exactly one DLQ envelope with `dlq_reason`
`abort_error` to the `{ns}.dlq` subject and then acks the original
message. -/
theorem ack_success_acks_abort_routes_to_dlq (cfg : Config) (b : AckBroker)
    (ctx : NatsContext) (r : AckRecord) (msg : Message)
    (hmsg : ctx.message = some msg)
    (hpub : b.publishDlqOk = true) (hack : b.ackOk = true) :
    (r.outcome = .ok () → ackHandler cfg b ctx r = ([.ackMsg], .ok ())) ∧
    (∀ s, r.outcome = .error (.abort s) → cfg.enable_dlq = true →
      (ackHandler cfg b ctx r).1 =
        [.publishDlq (cfg.ns ++ ".dlq") (dlqEnvelopeFor b msg r (.abort s)),
          .ackMsg] ∧
      (dlqEnvelopeFor b msg r (.abort s)).dlq_reason = "abort_error" ∧
      ((ackHandler cfg b ctx r).1.filter BrokerOp.isDlqPublish).length = 1 ∧
      (ackHandler cfg b ctx r).2 = .ok ()) := by
  constructor
  · intro hout
    simp [ackHandler, hmsg, hout, hack]
  · intro s hout hdlq
    refine ⟨?_, rfl, ?_, ?_⟩ <;>
      simp [ackHandler, hmsg, hout, hdlq, hpub, hack, shouldDlq,
        dlqSubjectName, BrokerOp.isDlqPublish]

/-- Witness for C1: an abort error with DLQ enabled under the default
configuration, at delivery count 1. -/
theorem ack_success_acks_abort_routes_to_dlq_witness :
    (ackHandler Config.default ⟨true, true, true, "ts"⟩
      ⟨some ⟨[7], 1⟩⟩ ⟨.error (.abort "boom"), "task-1", "a1"⟩).1 =
      [.publishDlq ("apalis" ++ ".dlq")
        (dlqEnvelopeFor ⟨true, true, true, "ts"⟩ ⟨[7], 1⟩
          ⟨.error (.abort "boom"), "task-1", "a1"⟩ (.abort "boom")),
        .ackMsg] ∧
    (dlqEnvelopeFor ⟨true, true, true, "ts"⟩ ⟨[7], 1⟩
      ⟨.error (.abort "boom"), "task-1", "a1"⟩ (.abort "boom")).dlq_reason =
      "abort_error" ∧
    ((ackHandler Config.default ⟨true, true, true, "ts"⟩
      ⟨some ⟨[7], 1⟩⟩
      ⟨.error (.abort "boom"), "task-1", "a1"⟩).1.filter
        BrokerOp.isDlqPublish).length = 1 ∧
    (ackHandler Config.default ⟨true, true, true, "ts"⟩
      ⟨some ⟨[7], 1⟩⟩ ⟨.error (.abort "boom"), "task-1", "a1"⟩).2 = .ok () :=
  (ack_success_acks_abort_routes_to_dlq Config.default ⟨true, true, true, "ts"⟩
    ⟨some ⟨[7], 1⟩⟩ ⟨.error (.abort "boom"), "task-1", "a1"⟩ ⟨[7], 1⟩
    rfl rfl rfl).2 "boom" rfl rfl

/-- C2: in the DLQ path of the ack handler, the DLQ publish strictly
precedes the ack of the original message; when the DLQ publish fails,
the original message is not acked and the operation returns an
error. -/
theorem dlq_publish_strictly_before_ack (cfg : Config) (b : AckBroker)
    (ctx : NatsContext) (r : AckRecord) (msg : Message) (e : JobError)
    (hmsg : ctx.message = some msg)
    (hout : r.outcome = .error e)
    (hdlq : cfg.enable_dlq = true)
    (hshould : shouldDlq cfg msg e = true) :
    (b.publishDlqOk = true →
      (ackHandler cfg b ctx r).1 =
        [.publishDlq (dlqSubjectName cfg) (dlqEnvelopeFor b msg r e),
          .ackMsg]) ∧
    (b.publishDlqOk = false →
      (ackHandler cfg b ctx r).1 =
        [.publishDlq (dlqSubjectName cfg) (dlqEnvelopeFor b msg r e)] ∧
      BrokerOp.ackMsg ∉ (ackHandler cfg b ctx r).1 ∧
      isNatsError (ackHandler cfg b ctx r).2 = true) := by
  constructor
  · intro hp
    cases hackOk : b.ackOk <;>
      simp [ackHandler, hmsg, hout, hdlq, hshould, hp, hackOk]
  · intro hp
    refine ⟨?_, ?_, ?_⟩ <;>
      simp [ackHandler, hmsg, hout, hdlq, hshould, hp, isNatsError]

/-- Witness for C2: a failing DLQ publish on an abort outcome leaves
the original message unacked and surfaces an error. -/
theorem dlq_publish_strictly_before_ack_witness :
    (ackHandler Config.default ⟨false, true, true, "ts"⟩
      ⟨some ⟨[3], 2⟩⟩ ⟨.error (.abort "bad"), "task-9", "a2"⟩).1 =
      [.publishDlq (dlqSubjectName Config.default)
        (dlqEnvelopeFor ⟨false, true, true, "ts"⟩ ⟨[3], 2⟩
          ⟨.error (.abort "bad"), "task-9", "a2"⟩ (.abort "bad"))] ∧
    BrokerOp.ackMsg ∉
      (ackHandler Config.default ⟨false, true, true, "ts"⟩
        ⟨some ⟨[3], 2⟩⟩ ⟨.error (.abort "bad"), "task-9", "a2"⟩).1 ∧
    isNatsError
      (ackHandler Config.default ⟨false, true, true, "ts"⟩
        ⟨some ⟨[3], 2⟩⟩ ⟨.error (.abort "bad"), "task-9", "a2"⟩).2 = true :=
  (dlq_publish_strictly_before_ack Config.default ⟨false, true, true, "ts"⟩
    ⟨some ⟨[3], 2⟩⟩ ⟨.error (.abort "bad"), "task-9", "a2"⟩ ⟨[3], 2⟩
    (.abort "bad") rfl rfl rfl rfl).2 rfl

/-- C3: at the failing input — a transient error on its first delivery
(`delivered = 1 < max_deliver = 5`) under the default configuration —
the ack handler naks with **no** redelivery delay
(`AckKind::Nak(None)`).  The crate documentation (lib.rs) documents a
`nak_backoff: Vec of Duration` configuration option whose schedule the
nak delay should follow, but `Config` has no such field and the handler
passes `None`, so the claimed delay
`nak_backoff[min(delivered-1, len-1)]` is never applied. -/
theorem transient_under_max_deliver_naks_without_delay :
    ackHandler Config.default ⟨true, true, true, "ts"⟩
      ⟨some ⟨[1, 2], 1⟩⟩ ⟨.error (.other "transient"), "task-1", "a1"⟩ =
      ([.ackWith (.nak none)], .ok ()) := by
  rfl

/-- C4 counterexample: a transient error at `delivered = 2` with
`max_deliver = 2` and DLQ disabled is nacked (`AckKind::Nak(None)`),
not terminated — the terminate op never appears in the trace. -/
theorem transient_max_deliver_no_dlq_not_terminated :
    ackHandler { Config.default with enable_dlq := false, max_deliver := 2 }
      ⟨true, true, true, "ts"⟩ ⟨some ⟨[9], 2⟩⟩
      ⟨.error (.other "always fails"), "task-2", "a2"⟩ =
      ([.ackWith (.nak none)], .ok ()) ∧
    BrokerOp.ackWith .term ∉
      (ackHandler { Config.default with enable_dlq := false, max_deliver := 2 }
        ⟨true, true, true, "ts"⟩ ⟨some ⟨[9], 2⟩⟩
        ⟨.error (.other "always fails"), "task-2", "a2"⟩).1 := by
  constructor
  · rfl
  · intro h
    simp [ackHandler, shouldDlq] at h

/-- C4 amended: for every transient error with broker-reported
delivered ≥ max_deliver and DLQ disabled, the ack handler nacks the
message with no delay (it does not terminate; the consumer-side
`max_deliver` limit is what prevents further redelivery). -/
theorem transient_max_deliver_no_dlq_naks (cfg : Config) (b : AckBroker)
    (ctx : NatsContext) (r : AckRecord) (msg : Message) (s : String)
    (hmsg : ctx.message = some msg)
    (hout : r.outcome = .error (.other s))
    (hdel : (msg.delivered : Int) ≥ cfg.max_deliver)
    (hdlq : cfg.enable_dlq = false)
    (hok : b.ackWithOk = true) :
    ackHandler cfg b ctx r = ([.ackWith (.nak none)], .ok ()) := by
  simp [ackHandler, hmsg, hout, hdlq, hok]

/-- Witness for the amended C4: transient error, delivered 2 of
max_deliver 2, DLQ disabled. -/
theorem transient_max_deliver_no_dlq_naks_witness :
    ackHandler { Config.default with enable_dlq := false, max_deliver := 2 }
      ⟨true, true, true, "ts"⟩ ⟨some ⟨[5], 2⟩⟩
      ⟨.error (.other "oops"), "task-3", "a3"⟩ =
      ([.ackWith (.nak none)], .ok ()) :=
  transient_max_deliver_no_dlq_naks
    { Config.default with enable_dlq := false, max_deliver := 2 }
    ⟨true, true, true, "ts"⟩ ⟨some ⟨[5], 2⟩⟩
    ⟨.error (.other "oops"), "task-3", "a3"⟩ ⟨[5], 2⟩ "oops"
    rfl rfl (by decide) rfl rfl

/-- C5: with the downstream channel open, every iteration of the fetch
loop pulls priorities as an order-respecting prefix of High, Medium,
Low (at most one message each), begins with a pull of High, stops the
pass as soon as a message is delivered downstream, and sleeps 10 ms
after a delivery and 100 ms when no message was delivered. -/
theorem fetch_loop_strict_priority {T : Type}
    (f : Priority → FetchOutcome T) :
    (∃ k, pulls (fetchIteration true f).1 = priorityOrder.take k) ∧
    (fetchIteration true f).1.head? = some (.pull .high) ∧
    (∀ p, FetchEvent.send p ∈ (fetchIteration true f).1 →
      ∃ pre, (fetchIteration true f).1 = pre ++ [.send p]) ∧
    ((∃ p, FetchEvent.send p ∈ (fetchIteration true f).1) →
      (fetchIteration true f).2 = .sleep 10) ∧
    ((∀ p, FetchEvent.send p ∉ (fetchIteration true f).1) →
      (fetchIteration true f).2 = .sleep 100) := by
  have hexit : (fetchPassAux true f priorityOrder).2.2 = false := by
    cases h : (fetchPassAux true f priorityOrder).2.2
    · rfl
    · cases fetchPassAux_exit true f priorityOrder h
  have hev := fetchIteration_events true f
  refine ⟨?_, ?_, ?_, ?_, ?_⟩
  · rw [hev]
    exact fetchPassAux_pulls true f priorityOrder
  · rw [hev]
    exact fetchPassAux_head true f .high [.medium, .low]
  · intro p hp
    rw [hev] at hp ⊢
    exact fetchPassAux_send_last true f priorityOrder p hp
  · rintro ⟨p, hp⟩
    rw [hev] at hp
    have hfound := (fetchPassAux_found_iff true f priorityOrder).mpr ⟨p, hp⟩
    simp [fetchIteration, hexit, hfound]
  · intro hnone
    have hfound : (fetchPassAux true f priorityOrder).2.1 = false := by
      cases h : (fetchPassAux true f priorityOrder).2.1
      · rfl
      · obtain ⟨p, hp⟩ := (fetchPassAux_found_iff true f priorityOrder).mp h
        exact absurd (by rw [hev]; exact hp) (hnone p)
    simp [fetchIteration, hexit, hfound]

/-- Witness for C5: High empty, Medium yields a decodable job, Low
errors — the iteration delivers from Medium and sleeps 10 ms. -/
theorem fetch_loop_strict_priority_witness :
    (fetchIteration true (fun p =>
      match p with
      | .high => FetchOutcome.empty
      | .medium => FetchOutcome.msg (.decodable ())
      | .low => FetchOutcome.brokerErr)).2 = IterResult.sleep 10 :=
  (fetch_loop_strict_priority (fun p =>
    match p with
    | .high => FetchOutcome.empty
    | .medium => FetchOutcome.msg (.decodable ())
    | .low => FetchOutcome.brokerErr)).2.2.2.1 ⟨.medium, by decide⟩

/-- C6: a pulled message that fails to decode is ack-with-terminated
within the same pass — never nacked and never published to the DLQ —
and the fetch loop exits only when the downstream channel is closed,
never because of a broker or decode error. -/
theorem fetch_loop_decode_failure_and_exit {T : Type} (chOpen : Bool)
    (f : Priority → FetchOutcome T) :
    (∀ q, FetchEvent.nakMsg q ∉ (fetchIteration chOpen f).1 ∧
      FetchEvent.dlqPublish q ∉ (fetchIteration chOpen f).1) ∧
    (∀ p, FetchEvent.pull p ∈ (fetchIteration chOpen f).1 →
      f p = FetchOutcome.msg .malformed →
      FetchEvent.termMalformed p ∈ (fetchIteration chOpen f).1) ∧
    ((fetchIteration chOpen f).2 = .exited → chOpen = false) := by
  have hev := fetchIteration_events chOpen f
  refine ⟨?_, ?_, ?_⟩
  · intro q
    rw [hev]
    exact fetchPassAux_no_nak_dlq chOpen f priorityOrder q
  · intro p hp hf
    rw [hev] at hp ⊢
    exact fetchPassAux_malformed_term chOpen f priorityOrder p hp hf
  · intro hx
    cases h : (fetchPassAux chOpen f priorityOrder).2.2
    · exfalso
      simp [fetchIteration, h] at hx
    · exact fetchPassAux_exit chOpen f priorityOrder h

/-- Witness for C6: every priority yields a malformed message; the one
pulled from High is terminated within the pass. -/
theorem fetch_loop_decode_failure_and_exit_witness :
    FetchEvent.termMalformed .high ∈
      (fetchIteration (T := Unit) true
        (fun _ => FetchOutcome.msg .malformed)).1 :=
  (fetch_loop_decode_failure_and_exit true
    (fun _ => FetchOutcome.msg (T := Unit) .malformed)).2.1 .high (by decide) rfl

/-- C7: storage construction plans, for each priority, a stream named
`{ns}_{p}` with single subject `{ns}.{p}`, file storage, 7-day
max_age, work-queue retention, oldest-first discard, a 120 s duplicate
window and the configured replica count; with DLQ enabled also a
`{ns}_dlq` stream on `{ns}.dlq` with 30-day max_age and default
(limits) retention; all creations succeed exactly when construction
succeeds, and any failing creation surfaces as a `Nats` error. -/
theorem provisioning_streams (cfg : Config) (create : StreamConfig → Bool) :
    newWithConfig cfg (fun _ => true) = .ok (plannedStreams cfg) ∧
    (∀ p : Priority,
      ({ name := cfg.ns ++ "_" ++ p.render
         subjects := [cfg.ns ++ "." ++ p.render]
         max_age_secs := 604800
         storage := .file
         num_replicas := cfg.num_replicas
         retention := .workQueue
         discard := .old
         duplicate_window_secs := 120 } : StreamConfig) ∈ plannedStreams cfg) ∧
    (cfg.enable_dlq = true →
      ({ name := cfg.ns ++ "_dlq"
         subjects := [cfg.ns ++ ".dlq"]
         max_age_secs := 2592000
         storage := .file
         num_replicas := cfg.num_replicas
         retention := .limits
         discard := .old
         duplicate_window_secs := 0 } : StreamConfig) ∈ plannedStreams cfg) ∧
    (plannedStreams cfg).length = (if cfg.enable_dlq then 4 else 3) ∧
    ((∃ sc ∈ plannedStreams cfg, create sc = false) →
      isNatsError (newWithConfig cfg create) = true) := by
  refine ⟨createAll_all_ok (plannedStreams cfg), ?_, ?_, ?_, ?_⟩
  · intro p
    have hmem : priorityStreamConfig cfg p ∈ plannedStreams cfg :=
      List.mem_append.mpr (Or.inl
        (List.mem_map_of_mem _ (by cases p <;> simp [priorityOrder])))
    exact hmem
  · intro hdlq
    have hmem : dlqStreamConfig cfg ∈ plannedStreams cfg := by
      simp [plannedStreams, hdlq]
    exact hmem
  · cases hdlq : cfg.enable_dlq <;> simp [plannedStreams, priorityOrder, hdlq]
  · exact createAll_error_of_mem create (plannedStreams cfg)

/-- Witness for C7: under the default namespace with a broker that
refuses the DLQ stream, construction fails with a `Nats` error. -/
theorem provisioning_streams_witness :
    isNatsError (newWithConfig Config.default
      (fun sc => !(sc.name == "apalis_dlq"))) = true :=
  (provisioning_streams Config.default
    (fun sc => !(sc.name == "apalis_dlq"))).2.2.2.2
    ⟨dlqStreamConfig Config.default, by decide, by decide⟩

/-- C8: `len` is the sum of the pending message counts of the three
priority streams, unaffected by the DLQ stream's count; `is_empty`
holds exactly when `len` is zero; and `stats` reports that same sum as
pending, zero for running, dead and success, and the DLQ stream's count
as failed when DLQ is enabled (zero otherwise). -/
theorem len_isEmpty_stats (cfg : Config) (sm sm' : String → Option Nat)
    (a b c d : Nat)
    (hh : sm (streamName cfg .high) = some a)
    (hm : sm (streamName cfg .medium) = some b)
    (hl : sm (streamName cfg .low) = some c)
    (hd : sm (dlqStreamName cfg) = some d)
    (hagree : ∀ p : Priority, sm' (streamName cfg p) = sm (streamName cfg p)) :
    lenImpl cfg sm = ((a + b + c : Nat) : Int) ∧
    (isEmptyImpl cfg sm = true ↔ lenImpl cfg sm = 0) ∧
    lenImpl cfg sm' = lenImpl cfg sm ∧
    statsImpl cfg sm =
      { pending := a + b + c, running := 0, dead := 0,
        failed := if cfg.enable_dlq then d else 0, success := 0 } := by
  refine ⟨?_, ?_, ?_, ?_⟩
  · simp [lenImpl, priorityOrder, hh, hm, hl]
    ring
  · simp [isEmptyImpl]
  · simp [lenImpl, priorityOrder, hagree]
  · simp [statsImpl, priorityOrder, hh, hm, hl, hd]
    omega

/-- Witness for C8: concrete per-stream counts 2, 3, 0 and DLQ count 7
under the default configuration. -/
theorem len_isEmpty_stats_witness :
    lenImpl Config.default (fun n =>
      if n = "apalis_high" then some 2
      else if n = "apalis_medium" then some 3
      else if n = "apalis_low" then some 0
      else if n = "apalis_dlq" then some 7 else none) = ((2 + 3 + 0 : Nat) : Int) ∧
    (isEmptyImpl Config.default (fun n =>
      if n = "apalis_high" then some 2
      else if n = "apalis_medium" then some 3
      else if n = "apalis_low" then some 0
      else if n = "apalis_dlq" then some 7 else none) = true ↔
      lenImpl Config.default (fun n =>
        if n = "apalis_high" then some 2
        else if n = "apalis_medium" then some 3
        else if n = "apalis_low" then some 0
        else if n = "apalis_dlq" then some 7 else none) = 0) ∧
    lenImpl Config.default (fun n =>
      if n = "apalis_high" then some 2
      else if n = "apalis_medium" then some 3
      else if n = "apalis_low" then some 0
      else if n = "apalis_dlq" then some 7 else none) =
      lenImpl Config.default (fun n =>
        if n = "apalis_high" then some 2
        else if n = "apalis_medium" then some 3
        else if n = "apalis_low" then some 0
        else if n = "apalis_dlq" then some 7 else none) ∧
    statsImpl Config.default (fun n =>
      if n = "apalis_high" then some 2
      else if n = "apalis_medium" then some 3
      else if n = "apalis_low" then some 0
      else if n = "apalis_dlq" then some 7 else none) =
      { pending := 2 + 3 + 0, running := 0, dead := 0,
        failed := if Config.default.enable_dlq then 7 else 0, success := 0 } :=
  len_isEmpty_stats Config.default
    (fun n =>
      if n = "apalis_high" then some 2
      else if n = "apalis_medium" then some 3
      else if n = "apalis_low" then some 0
      else if n = "apalis_dlq" then some 7 else none)
    (fun n =>
      if n = "apalis_high" then some 2
      else if n = "apalis_medium" then some 3
      else if n = "apalis_low" then some 0
      else if n = "apalis_dlq" then some 7 else none)
    2 3 0 7 (by decide) (by decide) (by decide) (by decide)
    (fun p => rfl)

/-- C9: the unsupported operations return a `Storage` error and perform
no broker call; `fetch_by_id` always returns `Ok(None)`, `list_jobs`
always returns an empty list, and `vacuum` always returns `Ok(0)`. -/
theorem unsupported_ops :
    pushRawRequest = ([], .error (.storage "Raw requests not supported")) ∧
    (∀ onTs : Int,
      scheduleRequest onTs =
        ([], .error (.storage "Scheduling not yet implemented"))) ∧
    updateJob = ([], .error (.storage "Updates not supported")) ∧
    (∀ w : Nat,
      rescheduleJob w =
        ([], .error (.storage "Rescheduling not yet implemented"))) ∧
    (∀ id : String, fetchById id = ([], .ok none)) ∧
    (∀ (st : Nat) (pg : Int), listJobs st pg = ([], .ok [])) ∧
    vacuumImpl = ([], .ok 0) :=
  ⟨rfl, fun _ => rfl, rfl, fun _ => rfl, fun _ => rfl, fun _ _ => rfl, rfl⟩

/-- C10: on a context without an attached broker message — such as the
default context returned by `push_request` — `ack`, `nack`, `term` and
`progress` perform no broker call and return `Ok(())`, whatever the
broker would have answered. -/
theorem context_ops_noop_without_message (ctx : NatsContext)
    (brokerOk : Bool) (h : ctx.message = none) :
    ctx.ack brokerOk = ([], .ok ()) ∧
    ctx.nack brokerOk = ([], .ok ()) ∧
    ctx.term brokerOk = ([], .ok ()) ∧
    ctx.progress brokerOk = ([], .ok ()) ∧
    pushRequestContext.message = none := by
  obtain ⟨m⟩ := ctx
  cases h
  exact ⟨rfl, rfl, rfl, rfl, rfl⟩

/-- Witness for C10 at the concrete message-free context with a failing
broker. -/
theorem context_ops_noop_without_message_witness :
    NatsContext.ack ⟨none⟩ false = ([], .ok ()) ∧
    NatsContext.nack ⟨none⟩ false = ([], .ok ()) ∧
    NatsContext.term ⟨none⟩ false = ([], .ok ()) ∧
    NatsContext.progress ⟨none⟩ false = ([], .ok ()) ∧
    pushRequestContext.message = none :=
  context_ops_noop_without_message ⟨none⟩ false rfl

end ApalisNats
